import Mathlib

/-!
Verification of the coordination logic of VLC's video-splitter display module
(`modules/video_output/splitter.c`).

The module fans one composited frame out to N regions ("parts"), each owning a
window (surface) and a `vout_display_t` (renderer), guarded by a per-part binary
semaphore `part->lock`, while a coordinator-wide mutex `sys->lock` guards the
video splitter (the Splitting Engine) and is claimed to guard the transient
`sys->pictures` array (the frame slots).

Each C function is embedded as a Lean function that returns both the updated
state and a trace of observable events (lock/unlock of the mutex, semaphore
waits/posts, collaborator calls).  External collaborators (the splitter filter,
`vout_display_Prepare`, window/display creation) are parameters, so theorems
quantify over their behaviour.  Machine pointers become `Option Nat` handles;
pictures become `Option Nat` ids.
-/

/-- Video orientations (`video_orientation_t`); only the distinction between
`ORIENT_NORMAL` and the rest matters to this module. -/
inductive Orient where
  | normal
  | hflip
  | vflip
  | rot90
  | rot180
  | rot270
  | transposed
  | antitransposed
  deriving DecidableEq

/-- A mouse event (`vlc_window_mouse_event_t`): coordinates plus a button/type
field, enough to distinguish distinct events. -/
structure MouseEv where
  x : Int
  y : Int
  button : Nat
  deriving DecidableEq

/-- Observable events emitted by the embedded operations.  `held` flags record
whether `sys->lock` (the global guard) is held at the moment of the access. -/
inductive Ev where
  /-- `vlc_mutex_lock(&sys->lock)` -/
  | lockG : Ev
  /-- `vlc_mutex_unlock(&sys->lock)` -/
  | unlockG : Ev
  /-- `video_splitter_Filter(&sys->splitter, sys->pictures, pic)` (engine call) -/
  | filterCall (held : Bool) : Ev
  /-- `video_splitter_Mouse(&sys->splitter, idx, &ev)` (engine call) -/
  | remapCall (held : Bool) : Ev
  /-- `sys->pictures[i] = NULL` in the filter-failure branch -/
  | picClear (i : Nat) (held : Bool) : Ev
  /-- `sys->pictures[i] = vout_display_Prepare(...)` store in the prepare loop -/
  | picWrite (i : Nat) (held : Bool) : Ev
  /-- `vlc_sem_wait(&sys->parts[i].lock)` -/
  | semWait (i : Nat) : Ev
  /-- `vlc_sem_post(&sys->parts[i].lock)` -/
  | semPost (i : Nat) : Ev
  /-- `vout_display_Prepare(part->display, ...)` for part `i`; `bound` records
  whether `part->display` was non-NULL at the call -/
  | dispPrep (i : Nat) (bound : Bool) : Ev
  /-- `vout_display_Display(part->display, sys->pictures[i])` for part `i` -/
  | dispPresent (i : Nat) : Ev
  /-- `picture_Release(sys->pictures[i])` -/
  | picRelease (i : Nat) : Ev
  /-- `vout_display_SetSize(part->display, w, h)` -/
  | setSize (w hgt : Nat) : Ev
  /-- resize acknowledgment callback `cb(wnd, w, hgt, ...)`; `pw`/`ph` record the
  values of `part->width`/`part->height` readable at the moment of the call -/
  | ackCb (w hgt pw ph : Nat) : Ev
  /-- `vlc_window_SendMouseEvent(vd->cfg->window, &ev)` -/
  | sendMouse (m : MouseEv) : Ev
  /-- `vlc_window_ReportKeyPress(vd->cfg->window, key)` -/
  | reportKey (k : Nat) : Ev
  /-- `vlc_window_New` succeeded for part `i` -/
  | winCreate (i : Nat) : Ev
  /-- `vlc_window_Enable` succeeded for part `i` -/
  | winEnable (i : Nat) : Ev
  /-- `vlc_window_Disable(part->window)` for part `i` -/
  | winDisable (i : Nat) : Ev
  /-- `vlc_window_Delete(part->window)` for part `i` -/
  | winDelete (i : Nat) : Ev
  /-- `vout_display_New` succeeded for part `i` -/
  | dispCreate (i : Nat) : Ev
  /-- `vout_display_Delete` of part `i`'s display -/
  | dispDelete (i : Nat) : Ev
  /-- `module_unneed(&sys->splitter, ...)` -/
  | modUnload : Ev
  /-- `vlc_object_delete(&sys->splitter)` -/
  | splitterDelete : Ev
  deriving DecidableEq

/-- One region (`struct vlc_vidsplit_part`): its bound renderer handle (the
`display` pointer, `none` = NULL), the last negotiated size, and the value of
its binary semaphore `lock` (1 = free, 0 = held). -/
structure vlc_vidsplit_part where
  display : Option Nat
  width : Nat
  height : Nat
  sem : Nat
  deriving DecidableEq

/-- Coordinator state (`vout_display_sys_t`): whether `sys->lock` is currently
held, the `sys->pictures` frame slots, the `sys->parts` array and the value of
`sys->splitter.i_output`. -/
structure Sys where
  mtxHeld : Bool
  pictures : List (Option Nat)
  parts : List vlc_vidsplit_part
  nOutput : Nat
  deriving DecidableEq

/-- The failure branch's clearing loop of `vlc_vidsplit_Prepare`:
`for (i = 0; i < sys->splitter.i_output; i++) sys->pictures[i] = NULL;`.
It runs after `vlc_mutex_unlock(&sys->lock)`, so the emitted `picClear`
events record the guard as not held.  The first argument is the loop count
`i_output`, the second the current index. -/
def clearLoop : Nat → Nat → List (Option Nat) → List (Option Nat) × List Ev
  | 0, _, pics => (pics, [])
  | _ + 1, _, [] => ([], [])
  | n + 1, i, _ :: pics =>
    let rest := clearLoop n (i + 1) pics
    (none :: rest.1, Ev.picClear i false :: rest.2)

/-- The success-branch loop of `vlc_vidsplit_Prepare`: for each `i`,
`vlc_sem_wait(&part->lock); sys->pictures[i] = vout_display_Prepare(
part->display, sys->pictures[i], NULL, date);`.  Note the source performs the
`vout_display_Prepare` call unconditionally, without testing
`part->display != NULL`; the `dispPrep` event records whether it was bound.
`prepFn` models the collaborator `vout_display_Prepare` (which may substitute
or drop the picture).  Runs entirely after `vlc_mutex_unlock(&sys->lock)`,
hence the `picWrite` events record the guard as not held. -/
def prepLoop (prepFn : Nat → Option Nat → Option Nat) :
    Nat → Nat → List vlc_vidsplit_part → List (Option Nat) →
    List vlc_vidsplit_part × List (Option Nat) × List Ev
  | 0, _, ps, pics => (ps, pics, [])
  | _ + 1, _, [], pics => ([], pics, [])
  | _ + 1, _, ps, [] => (ps, [], [])
  | n + 1, i, p :: ps, pic :: pics =>
    let p1 : vlc_vidsplit_part := { p with sem := p.sem - 1 }
    let rest := prepLoop prepFn n (i + 1) ps pics
    (p1 :: rest.1, prepFn i pic :: rest.2.1,
      Ev.semWait i :: Ev.dispPrep i p.display.isSome :: Ev.picWrite i false :: rest.2.2)

/-- `vlc_vidsplit_Prepare`.  The collaborator `video_splitter_Filter` is
modelled by `filterOk` (its status) and `outs` (the pictures it stores into
`sys->pictures` on success, under the mutex).  `prepFn` models
`vout_display_Prepare`.  The initial `picture_Hold(pic)` touches no
coordinator state and is omitted. -/
def vidsplit_Prepare (s : Sys) (filterOk : Bool) (outs : List (Option Nat))
    (prepFn : Nat → Option Nat → Option Nat) : Sys × List Ev :=
  -- vlc_mutex_lock(&sys->lock); if (video_splitter_Filter(...)) { ... }
  if filterOk then
    -- vlc_mutex_unlock(&sys->lock); then the per-part prepare loop
    let pl := prepLoop prepFn s.nOutput 0 s.parts outs
    ({ s with mtxHeld := false, parts := pl.1, pictures := pl.2.1 },
      Ev.lockG :: Ev.filterCall true :: Ev.unlockG :: pl.2.2)
  else
    -- failure: vlc_mutex_unlock(&sys->lock); clear the slots; return
    let cl := clearLoop s.nOutput 0 s.pictures
    ({ s with mtxHeld := false, pictures := cl.1 },
      Ev.lockG :: Ev.filterCall true :: Ev.unlockG :: cl.2)

/-- The loop of `vlc_vidsplit_Display`: for each `i`, if `sys->pictures[i]` is
non-NULL, present it on `part->display` and release it; then
`vlc_sem_post(&part->lock)` unconditionally.  The slots are read without
`sys->lock`; the pictures list is left unchanged (the source does not clear
`sys->pictures[i]` here). -/
def dispLoop : Nat → Nat → List vlc_vidsplit_part → List (Option Nat) → List vlc_vidsplit_part × List Ev
  | 0, _, ps, _ => (ps, [])
  | _ + 1, _, [], _ => ([], [])
  | _ + 1, _, ps, [] => (ps, [])
  | n + 1, i, p :: ps, pic :: pics =>
    let evs :=
      match pic with
      | some _ => [Ev.dispPresent i, Ev.picRelease i, Ev.semPost i]
      | none => [Ev.semPost i]
    let p1 : vlc_vidsplit_part := { p with sem := p.sem + 1 }
    let rest := dispLoop n (i + 1) ps pics
    (p1 :: rest.1, evs ++ rest.2)

/-- `vlc_vidsplit_Display`. -/
def vidsplit_Display (s : Sys) : Sys × List Ev :=
  let dl := dispLoop s.nOutput 0 s.parts s.pictures
  ({ s with parts := dl.1 }, dl.2)

/-- `vlc_vidsplit_Control`: accepts the three source-change queries, rejects
everything else.  Queries are the `VOUT_DISPLAY_CHANGE_*` codes. -/
inductive CtlQuery where
  | changeSourceAspect
  | changeSourceCrop
  | changeSourcePlace
  | other (code : Nat)
  deriving DecidableEq

/-- VLC_SUCCESS -/
def VLC_SUCCESS : Int := 0
/-- VLC_EGENERIC -/
def VLC_EGENERIC : Int := -1
/-- VLC_ENOMEM -/
def VLC_ENOMEM : Int := -2

/-- `vlc_vidsplit_Control`. -/
def vidsplit_Control (q : CtlQuery) : Int :=
  match q with
  | CtlQuery.changeSourceAspect => VLC_SUCCESS
  | CtlQuery.changeSourceCrop => VLC_SUCCESS
  | CtlQuery.changeSourcePlace => VLC_SUCCESS
  | CtlQuery.other _ => VLC_EGENERIC

/-- `vlc_vidsplit_window_Resized` for the part at index `idx`:
`vlc_sem_wait(&part->lock); part->width = w; part->height = hgt;
if (part->display) vout_display_SetSize(part->display, w, hgt);
if (cb) cb(wnd, w, hgt, ...); vlc_sem_post(&part->lock);`.
`hasCb` models `cb != NULL`; the `ackCb` event records the part's
`width`/`height` fields as readable at the moment the callback runs. -/
def window_Resized (idx : Nat) (p : vlc_vidsplit_part) (w hgt : Nat) (hasCb : Bool) :
    vlc_vidsplit_part × List Ev :=
  let p1 : vlc_vidsplit_part := { p with width := w, height := hgt, sem := p.sem - 1 }
  let evSize : List Ev :=
    match p1.display with
    | some _ => [Ev.setSize w hgt]
    | none => []
  let evAck : List Ev := if hasCb then [Ev.ackCb w hgt p1.width p1.height] else []
  ({ p1 with sem := p1.sem + 1 },
    Ev.semWait idx :: (evSize ++ evAck ++ [Ev.semPost idx]))

/-- `vlc_vidsplit_window_Closed` for the part at index `idx`:
take `part->display` and clear it under the part's lock, then delete the taken
display outside the lock if it was non-NULL. -/
def window_Closed (idx : Nat) (p : vlc_vidsplit_part) : vlc_vidsplit_part × List Ev :=
  let taken := p.display
  let evDel : List Ev :=
    match taken with
    | some _ => [Ev.dispDelete idx]
    | none => []
  ({ p with display := none },
    Ev.semWait idx :: Ev.semPost idx :: evDel)

/-- `vlc_vidsplit_window_MouseEvent`: copies the incoming event into a local
(`vlc_window_mouse_event_t ev = *e;`), remaps the copy with
`video_splitter_Mouse` under `sys->lock`, and forwards the remapped copy on
success.  `remap` models `video_splitter_Mouse` (returning the remapped copy,
or `none` on failure).  The first component of the result is the caller's
event structure after the call (the handler only ever touches its copy). -/
def window_MouseEvent (e : MouseEv) (remap : MouseEv → Option MouseEv) :
    MouseEv × List Ev :=
  let ev := e
  let evs : List Ev :=
    match remap ev with
    | some ev2 => [Ev.lockG, Ev.remapCall true, Ev.sendMouse ev2, Ev.unlockG]
    | none => [Ev.lockG, Ev.remapCall true, Ev.unlockG]
  (e, evs)

/-- `vlc_vidsplit_window_KeyboardEvent`: forwards the key under `sys->lock`. -/
def window_KeyboardEvent (key : Nat) : List Ev :=
  [Ev.lockG, Ev.reportKey key, Ev.unlockG]

/-- The loop of `vlc_vidsplit_Close`: for each `i` below `n = i_output`, take
and clear `part->display` under the part's lock, delete the taken display
outside the lock if non-NULL, then disable and delete the window.  The loop
bound `n` is the recorded `i_output`, which on rollback paths is smaller than
the allocated parts array. -/
def closeLoop : Nat → Nat → List vlc_vidsplit_part → List vlc_vidsplit_part × List Ev
  | 0, _, ps => (ps, [])
  | _ + 1, _, [] => ([], [])
  | n + 1, i, p :: ps =>
    let evDel : List Ev :=
      match p.display with
      | some _ => [Ev.dispDelete i]
      | none => []
    let rest := closeLoop n (i + 1) ps
    ({ p with display := none } :: rest.1,
      (Ev.semWait i :: Ev.semPost i :: evDel ++ [Ev.winDisable i, Ev.winDelete i])
        ++ rest.2)

/-- `vlc_vidsplit_Close` with `n = sys->splitter.i_output`: tear down the first
`n` parts, then `module_unneed`, `video_format_Clean` and delete the splitter
object. -/
def vidsplit_Close (n : Nat) (ps : List vlc_vidsplit_part) : List vlc_vidsplit_part × List Ev :=
  let cl := closeLoop n 0 ps
  (cl.1, cl.2 ++ [Ev.modUnload, Ev.splitterDelete])

/-- Collaborator outcomes for `vlc_vidsplit_Open`: the windowed-configuration
test, `var_InheritString`, `vlc_object_create`, `module_need`, the reported
output count, the two `vlc_obj_malloc`s (merged: the source tests them
together), and per-part `vlc_window_New`, `vlc_window_Enable` and
`vout_display_New`. -/
structure OpenEnv where
  windowed : Bool
  nameOk : Bool
  sysAllocOk : Bool
  moduleOk : Bool
  nOut : Nat
  allocOk : Bool
  winNewOk : Nat → Bool
  winEnableOk : Nat → Bool
  dispOk : Nat → Bool

/-- `video_splitter_CreateWindow`: create the window, then enable it; on
enable failure the window is deleted inside this helper and NULL returned. -/
def CreateWindow (env : OpenEnv) (i : Nat) : Bool × List Ev :=
  if env.winNewOk i then
    if env.winEnableOk i then (true, [Ev.winCreate i, Ev.winEnable i])
    else (false, [Ev.winCreate i, Ev.winDelete i])
  else (false, [])

/-- Result of `vlc_vidsplit_Open`: the return code, whether `vd->ops` was
installed, the orientation stored into `splitter->fmt` and into `*fmtp` (as
last assigned; `none` if never assigned), the final `i_output`, the parts
array, and the event trace. -/
structure OpenRes where
  code : Int
  opsSet : Bool
  splitterOrient : Option Orient
  fmtpOrient : Option Orient
  nOutput : Nat
  parts : List vlc_vidsplit_part
  trace : List Ev

/-- The construction loop of `vlc_vidsplit_Open` over parts `i .. i+fuel-1`,
carrying the already-built prefix `acc`.  Each iteration initialises the part
(`sem = 1`, `display = NULL`, size 1x1), creates & enables its window, then
under the part's lock creates its display.  On window failure: set
`i_output = i` and run `vlc_vidsplit_Close` on the built prefix.  On display
failure: post the lock, disable and delete this part's window, set
`i_output = i`, and run `vlc_vidsplit_Close` on the built prefix. -/
def openLoop (env : OpenEnv) : Nat → Nat → List vlc_vidsplit_part → Bool × List vlc_vidsplit_part × List Ev
  | 0, _, acc => (true, acc, [])
  | n + 1, i, acc =>
    let cw := CreateWindow env i
    if cw.1 then
      if env.dispOk i then
        let p : vlc_vidsplit_part := { display := some i, width := 1, height := 1, sem := 1 }
        let rest := openLoop env n (i + 1) (acc ++ [p])
        (rest.1, rest.2.1,
          cw.2 ++ [Ev.semWait i, Ev.dispCreate i, Ev.semPost i] ++ rest.2.2)
      else
        let cl := vidsplit_Close i acc
        (false, cl.1,
          cw.2 ++ [Ev.semWait i, Ev.semPost i, Ev.winDisable i, Ev.winDelete i]
            ++ cl.2)
    else
      let cl := vidsplit_Close i acc
      (false, cl.1, cw.2 ++ cl.2)

/-- The value stored into `splitter->fmt.orientation`:
`video_format_Copy(&splitter->fmt, vd->source)` copies the source orientation,
then `splitter->fmt.orientation = ORIENT_NORMAL` overwrites it. -/
def forcedOrient (src : Orient) : Orient :=
  let copied := src
  match copied with
  | _ => Orient.normal

/-- `vlc_vidsplit_Open`, parametrised by the collaborator outcomes and the
source format's orientation. -/
def vidsplit_Open (env : OpenEnv) (srcOrient : Orient) : OpenRes :=
  if env.windowed then
    -- vout_display_cfg_IsWindowed -> VLC_EGENERIC
    { code := VLC_EGENERIC, opsSet := false, splitterOrient := none,
      fmtpOrient := none, nOutput := 0, parts := [], trace := [] }
  else if !env.nameOk then
    -- var_InheritString returned NULL -> VLC_EGENERIC
    { code := VLC_EGENERIC, opsSet := false, splitterOrient := none,
      fmtpOrient := none, nOutput := 0, parts := [], trace := [] }
  else if !env.sysAllocOk then
    -- vlc_object_create failed -> VLC_ENOMEM
    { code := VLC_ENOMEM, opsSet := false, splitterOrient := none,
      fmtpOrient := none, nOutput := 0, parts := [], trace := [] }
  else
    -- video_format_Copy then the two forced orientation assignments
    let so := forcedOrient srcOrient
    let fo := Orient.normal
    if !env.moduleOk then
      -- module_need failed: clean splitter fmt, delete splitter, VLC_EGENERIC
      { code := VLC_EGENERIC, opsSet := false, splitterOrient := some so,
        fmtpOrient := some fo, nOutput := 0, parts := [],
        trace := [Ev.splitterDelete] }
    else if !env.allocOk then
      -- pictures/parts allocation failed: i_output = 0 then Close, VLC_ENOMEM
      let cl := vidsplit_Close 0 []
      { code := VLC_ENOMEM, opsSet := false, splitterOrient := some so,
        fmtpOrient := some fo, nOutput := 0, parts := [], trace := cl.2 }
    else
      let lp := openLoop env env.nOut 0 []
      if lp.1 then
        -- all parts built: vd->ops = &ops; return VLC_SUCCESS
        { code := VLC_SUCCESS, opsSet := true, splitterOrient := some so,
          fmtpOrient := some fo, nOutput := env.nOut, parts := lp.2.1,
          trace := lp.2.2 }
      else
        { code := VLC_EGENERIC, opsSet := false, splitterOrient := some so,
          fmtpOrient := some fo, nOutput := 0, parts := lp.2.1,
          trace := lp.2.2 }

/-- Region indices receiving a `vout_display_Prepare` call, in trace order. -/
def prepsOf (tr : List Ev) : List Nat :=
  tr.filterMap fun e =>
    match e with
    | Ev.dispPrep i _ => some i
    | _ => none

/-- Region indices receiving a `vout_display_Display` call, in trace order. -/
def presentsOf (tr : List Ev) : List Nat :=
  tr.filterMap fun e =>
    match e with
    | Ev.dispPresent i => some i
    | _ => none

/-- Region indices whose guard semaphore is waited on, in trace order. -/
def waitsOf (tr : List Ev) : List Nat :=
  tr.filterMap fun e =>
    match e with
    | Ev.semWait i => some i
    | _ => none

/-- Region indices whose guard semaphore is posted, in trace order. -/
def postsOf (tr : List Ev) : List Nat :=
  tr.filterMap fun e =>
    match e with
    | Ev.semPost i => some i
    | _ => none

/-- Number of occurrences of event `e` in trace `tr`. -/
def countEv (e : Ev) (tr : List Ev) : Nat :=
  (tr.filter fun x => x = e).length

theorem countEv_nil (e : Ev) : countEv e [] = 0 := rfl

theorem countEv_cons (e a : Ev) (tr : List Ev) :
    countEv e (a :: tr) = (if a = e then 1 else 0) + countEv e tr := by
  by_cases h : a = e <;> simp [countEv, List.filter_cons, h, Nat.add_comm]

theorem countEv_append (e : Ev) (a b : List Ev) :
    countEv e (a ++ b) = countEv e a + countEv e b := by
  simp [countEv, List.filter_append]

/-- The list `[i, i+1, ..., i+n-1]`. -/
def idxList : Nat → Nat → List Nat
  | _, 0 => []
  | i, n + 1 => i :: idxList (i + 1) n

theorem idxList_eq_range' : ∀ (n i : Nat), idxList i n = List.range' i n := by
  intro n
  induction n with
  | zero => intro i; rfl
  | succ m ih => intro i; simp [idxList, List.range'_succ, ih]

theorem idxList_zero (n : Nat) : idxList 0 n = List.range n := by
  rw [idxList_eq_range', List.range_eq_range']

/-- Claim C1 divergence, evaluated at a failing input (one region with a bound
renderer, a cycle whose `video_splitter_Filter` call fails): the prepare phase
does clear the frame slots, acquires no region guard and issues no renderer
prepare, and the commit phase presents nothing — but the commit phase still
executes `vlc_sem_post(&part->lock)` for the region, raising its binary
guard semaphore from 1 to 2, where the claim requires no semaphore post. -/
theorem prepare_fail_then_display_still_posts_guards :
    waitsOf (vidsplit_Prepare ⟨false, [some 3], [⟨some 7, 1, 1, 1⟩], 1⟩ false []
        (fun _ pic => pic)).2 = [] ∧
    prepsOf (vidsplit_Prepare ⟨false, [some 3], [⟨some 7, 1, 1, 1⟩], 1⟩ false []
        (fun _ pic => pic)).2 = [] ∧
    (vidsplit_Prepare ⟨false, [some 3], [⟨some 7, 1, 1, 1⟩], 1⟩ false []
        (fun _ pic => pic)).1.pictures = [none] ∧
    presentsOf (vidsplit_Display (vidsplit_Prepare ⟨false, [some 3],
        [⟨some 7, 1, 1, 1⟩], 1⟩ false [] (fun _ pic => pic)).1).2 = [] ∧
    postsOf (vidsplit_Display (vidsplit_Prepare ⟨false, [some 3],
        [⟨some 7, 1, 1, 1⟩], 1⟩ false [] (fun _ pic => pic)).1).2 = [0] ∧
    (vidsplit_Display (vidsplit_Prepare ⟨false, [some 3], [⟨some 7, 1, 1, 1⟩], 1⟩
        false [] (fun _ pic => pic)).1).1.parts.map vlc_vidsplit_part.sem = [2] := by
  decide

/-- Claim C2 divergence, evaluated at a failing input (one region whose
renderer has been cleared by an asynchronous close, then a render cycle whose
filter call succeeds): the success branch of the prepare phase still issues
the `vout_display_Prepare` call for that region — the source has no
`part->display != NULL` test — so a prepare is issued with an unbound (NULL)
renderer handle. -/
theorem prepare_issued_for_unbound_renderer :
    Ev.dispPrep 0 false ∈
      (vidsplit_Prepare ⟨false, [none], [⟨none, 1, 1, 1⟩], 1⟩ true [some 4]
        (fun _ pic => pic)).2 := by
  decide

/-- Claim C6: running the asynchronous close callback for a region and then
the coordinator teardown destroys that region's renderer at most once — the
close callback takes and clears the renderer (deleting it outside the guard
iff it was bound), and the teardown loop then observes `display == NULL` and
skips the delete entirely. -/
theorem closed_then_teardown_deletes_renderer_once (p : vlc_vidsplit_part) :
    countEv (Ev.dispDelete 0)
        ((window_Closed 0 p).2 ++ (vidsplit_Close 1 [(window_Closed 0 p).1]).2)
      = (if p.display.isSome then 1 else 0) ∧
    countEv (Ev.dispDelete 0) (vidsplit_Close 1 [(window_Closed 0 p).1]).2 = 0 ∧
    (window_Closed 0 p).1.display = none := by
  cases hd : p.display <;>
    simp [window_Closed, vidsplit_Close, closeLoop, countEv, hd,
      List.filter_cons, List.filter_append]

/-- Claim C7: the resize handler stores the new negotiated size, instructs the
renderer to resize exactly when one is bound, and, when an acknowledgment
callback was supplied, invokes it before the guard's release (the final
`semPost`) with the just-applied size observable in the part's fields; no
acknowledgment is invoked otherwise. -/
theorem resized_stores_size_resizes_if_bound_acks_under_guard
    (idx : Nat) (p : vlc_vidsplit_part) (w hgt : Nat) (hasCb : Bool) :
    ((window_Resized idx p w hgt hasCb).1.width = w ∧
      (window_Resized idx p w hgt hasCb).1.height = hgt) ∧
    (Ev.setSize w hgt ∈ (window_Resized idx p w hgt hasCb).2 ↔
      p.display.isSome = true) ∧
    (window_Resized idx p w hgt hasCb).2.getLast? = some (Ev.semPost idx) ∧
    (Ev.ackCb w hgt w hgt ∈ (window_Resized idx p w hgt hasCb).2.dropLast ↔
      hasCb = true) ∧
    (∀ a b c d : Nat, Ev.ackCb a b c d ∈ (window_Resized idx p w hgt hasCb).2 →
      a = w ∧ b = hgt ∧ c = w ∧ d = hgt ∧ hasCb = true) := by
  cases hc : hasCb <;> cases hd : p.display <;>
    simp [window_Resized, hd, List.getLast?, List.dropLast]

/-- Witness for `resized_stores_size_resizes_if_bound_acks_under_guard` at a
concrete region, size and callback. -/
theorem resized_stores_size_witness :
    (window_Resized 0 ⟨some 3, 1, 1, 1⟩ 4 5 true).1.width = 4 ∧
    (Ev.ackCb 4 5 4 5 ∈ (window_Resized 0 ⟨some 3, 1, 1, 1⟩ 4 5 true).2.dropLast) :=
  ⟨(resized_stores_size_resizes_if_bound_acks_under_guard 0 ⟨some 3, 1, 1, 1⟩
      4 5 true).1.1,
    ((resized_stores_size_resizes_if_bound_acks_under_guard 0 ⟨some 3, 1, 1, 1⟩
      4 5 true).2.2.2.1).mpr rfl⟩

/-- Claim C8: the mouse-event handler operates on a private copy of the
incoming event — the caller-supplied structure is returned unchanged — and the
remapped copy is forwarded to the composite window's event sink exactly when
the Splitting Engine's remap succeeds (and is exactly the remapped copy). -/
theorem mouse_event_copy_semantics (e : MouseEv)
    (remap : MouseEv → Option MouseEv) :
    (window_MouseEvent e remap).1 = e ∧
    (∀ m : MouseEv, Ev.sendMouse m ∈ (window_MouseEvent e remap).2 ↔
      remap e = some m) := by
  refine ⟨rfl, fun m => ?_⟩
  unfold window_MouseEvent
  cases hr : remap e <;> simp [hr, eq_comm]

/-- Witness for `mouse_event_copy_semantics` at a concrete event and remap. -/
theorem mouse_event_copy_witness :
    (window_MouseEvent ⟨1, 2, 3⟩ (fun m => some ⟨m.x + 1, m.y, 0⟩)).1 = ⟨1, 2, 3⟩ ∧
    Ev.sendMouse ⟨2, 2, 0⟩ ∈
      (window_MouseEvent ⟨1, 2, 3⟩ (fun m => some ⟨m.x + 1, m.y, 0⟩)).2 :=
  ⟨(mouse_event_copy_semantics ⟨1, 2, 3⟩ (fun m => some ⟨m.x + 1, m.y, 0⟩)).1,
    ((mouse_event_copy_semantics ⟨1, 2, 3⟩ (fun m => some ⟨m.x + 1, m.y, 0⟩)).2
      ⟨2, 2, 0⟩).mpr rfl⟩

/-- Claim C9: the display operations table is installed exactly when open
completes fully successfully; every failure path returns without installing
`vd->ops`, and the return code is `VLC_SUCCESS` exactly in the installing
case (all failure codes are nonzero). -/
theorem ops_installed_iff_open_succeeds (env : OpenEnv) (o : Orient) :
    (vidsplit_Open env o).opsSet = true ↔
      (vidsplit_Open env o).code = VLC_SUCCESS := by
  unfold vidsplit_Open
  repeat' split
  all_goals try simp only []
  repeat' split
  all_goals simp [VLC_SUCCESS, VLC_EGENERIC, VLC_ENOMEM]

/-- `forcedOrient` always yields `ORIENT_NORMAL`. -/
theorem forcedOrient_eq (o : Orient) : forcedOrient o = Orient.normal := by
  cases o <;> rfl

/-- Claim C10: whenever open reaches the format-configuration step (the
windowed-placement check, splitter-name lookup and sys allocation succeed), it
forces both the splitter input format's orientation and the reported output
format's orientation to `ORIENT_NORMAL`, whatever the source orientation. -/
theorem open_forces_normal_orientation (env : OpenEnv) (o : Orient)
    (hw : env.windowed = false) (hn : env.nameOk = true)
    (hs : env.sysAllocOk = true) :
    (vidsplit_Open env o).splitterOrient = some Orient.normal ∧
    (vidsplit_Open env o).fmtpOrient = some Orient.normal := by
  unfold vidsplit_Open
  rw [hw, hn, hs]
  simp only [Bool.false_eq_true, if_false, Bool.not_true, forcedOrient_eq]
  repeat' split
  all_goals simp [forcedOrient_eq]

/-- Witness for `open_forces_normal_orientation`: a rotated source still
yields `ORIENT_NORMAL` in both formats. -/
theorem open_forces_normal_orientation_witness :
    (vidsplit_Open ⟨false, true, true, true, 1, true, fun _ => true,
        fun _ => true, fun _ => true⟩ Orient.rot90).splitterOrient
      = some Orient.normal ∧
    (vidsplit_Open ⟨false, true, true, true, 1, true, fun _ => true,
        fun _ => true, fun _ => true⟩ Orient.rot90).fmtpOrient
      = some Orient.normal :=
  open_forces_normal_orientation _ Orient.rot90 rfl rfl rfl

/-- Engine-access discipline of an event: satisfied unless the event is a
Splitting Engine call (`video_splitter_Filter` / `video_splitter_Mouse`) made
while `sys->lock` is not held. -/
def engineHeldOk : Ev → Bool
  | Ev.filterCall held => held
  | Ev.remapCall held => held
  | _ => true

/-- Slot-access discipline outside the filter call: satisfied when every
direct access to `sys->pictures` (the failure-branch clear and the prepare
loop's store) happens while `sys->lock` is NOT held. -/
def slotAccessUnlocked : Ev → Bool
  | Ev.picClear _ held => !held
  | Ev.picWrite _ held => !held
  | _ => true

/-- Both disciplines at once; used as the induction invariant. -/
def disciplined (e : Ev) : Bool := engineHeldOk e && slotAccessUnlocked e

theorem clearLoop_disciplined :
    ∀ (n i : Nat) (pics : List (Option Nat)),
      ∀ e ∈ (clearLoop n i pics).2, disciplined e = true := by
  intro n
  induction n with
  | zero => intro i pics e he; simp [clearLoop] at he
  | succ m ih =>
    intro i pics e he
    cases pics with
    | nil => simp [clearLoop] at he
    | cons q rest =>
      simp only [clearLoop, List.mem_cons] at he
      rcases he with h | h
      · subst h; rfl
      · exact ih _ _ _ h

theorem prepLoop_disciplined (prepFn : Nat → Option Nat → Option Nat) :
    ∀ (n i : Nat) (ps : List vlc_vidsplit_part) (pics : List (Option Nat)),
      ∀ e ∈ (prepLoop prepFn n i ps pics).2.2, disciplined e = true := by
  intro n
  induction n with
  | zero => intro i ps pics e he; simp [prepLoop] at he
  | succ m ih =>
    intro i ps pics e he
    cases ps with
    | nil => simp [prepLoop] at he
    | cons p rest =>
      cases pics with
      | nil => simp [prepLoop] at he
      | cons pic pics2 =>
        simp only [prepLoop, List.mem_cons] at he
        rcases he with h | h | h | h
        · subst h; rfl
        · subst h; rfl
        · subst h; rfl
        · exact ih _ _ _ _ h

theorem dispLoop_disciplined :
    ∀ (n i : Nat) (ps : List vlc_vidsplit_part) (pics : List (Option Nat)),
      ∀ e ∈ (dispLoop n i ps pics).2, disciplined e = true := by
  intro n
  induction n with
  | zero => intro i ps pics e he; simp [dispLoop] at he
  | succ m ih =>
    intro i ps pics e he
    cases ps with
    | nil => simp [dispLoop] at he
    | cons p rest =>
      cases pics with
      | nil => simp [dispLoop] at he
      | cons pic pics2 =>
        cases pic with
        | some v =>
          simp only [dispLoop, List.cons_append, List.nil_append,
            List.mem_cons] at he
          rcases he with h | h | h | h
          · subst h; rfl
          · subst h; rfl
          · subst h; rfl
          · exact ih _ _ _ _ h
        | none =>
          simp only [dispLoop, List.cons_append, List.nil_append,
            List.mem_cons] at he
          rcases he with h | h
          · subst h; rfl
          · exact ih _ _ _ _ h

theorem closeLoop_disciplined :
    ∀ (n i : Nat) (ps : List vlc_vidsplit_part),
      ∀ e ∈ (closeLoop n i ps).2, disciplined e = true := by
  intro n
  induction n with
  | zero => intro i ps e he; simp [closeLoop] at he
  | succ m ih =>
    intro i ps e he
    cases ps with
    | nil => simp [closeLoop] at he
    | cons p rest =>
      cases hd : p.display with
      | some v =>
        simp only [closeLoop, hd, List.cons_append, List.nil_append,
          List.mem_cons, List.append_assoc] at he
        rcases he with h | h | h | h | h | h
        · subst h; rfl
        · subst h; rfl
        · subst h; rfl
        · subst h; rfl
        · subst h; rfl
        · exact ih _ _ _ h
      | none =>
        simp only [closeLoop, hd, List.cons_append, List.nil_append,
          List.mem_cons, List.append_assoc] at he
        rcases he with h | h | h | h | h
        · subst h; rfl
        · subst h; rfl
        · subst h; rfl
        · subst h; rfl
        · exact ih _ _ _ h

/-- Claim C3 (amended): across every operation of the module, the Splitting
Engine is invoked only while `sys->lock` is held; the frame slots, however,
are NOT confined to the guard — every direct slot access outside the filter
invocation (the failure-branch clearing and the prepare loop's stores) happens
after `sys->lock` has been released. -/
theorem engine_only_under_global_guard
    (s s2 : Sys) (filterOk : Bool) (outs : List (Option Nat))
    (prepFn : Nat → Option Nat → Option Nat) (e : MouseEv)
    (remap : MouseEv → Option MouseEv) (key idx w hgt : Nat)
    (p q : vlc_vidsplit_part) (hasCb : Bool) (n : Nat)
    (ps : List vlc_vidsplit_part) :
    (∀ ev ∈ (vidsplit_Prepare s filterOk outs prepFn).2, engineHeldOk ev = true) ∧
    (∀ ev ∈ (vidsplit_Prepare s filterOk outs prepFn).2,
      slotAccessUnlocked ev = true) ∧
    (∀ ev ∈ (vidsplit_Display s2).2, engineHeldOk ev = true) ∧
    (∀ ev ∈ (window_MouseEvent e remap).2, engineHeldOk ev = true) ∧
    (∀ ev ∈ window_KeyboardEvent key, engineHeldOk ev = true) ∧
    (∀ ev ∈ (window_Resized idx p w hgt hasCb).2, engineHeldOk ev = true) ∧
    (∀ ev ∈ (window_Closed idx q).2, engineHeldOk ev = true) ∧
    (∀ ev ∈ (vidsplit_Close n ps).2, engineHeldOk ev = true) := by
  have hprep : ∀ ev ∈ (vidsplit_Prepare s filterOk outs prepFn).2,
      disciplined ev = true := by
    intro ev he
    unfold vidsplit_Prepare at he
    cases filterOk with
    | true =>
      simp only [if_true, List.mem_cons] at he
      rcases he with h | h | h | h
      · subst h; rfl
      · subst h; rfl
      · subst h; rfl
      · exact prepLoop_disciplined _ _ _ _ _ _ h
    | false =>
      simp only [Bool.false_eq_true, if_false, List.mem_cons] at he
      rcases he with h | h | h | h
      · subst h; rfl
      · subst h; rfl
      · subst h; rfl
      · exact clearLoop_disciplined _ _ _ _ h
  refine ⟨fun ev he => ?_, fun ev he => ?_, fun ev he => ?_, fun ev he => ?_,
    fun ev he => ?_, fun ev he => ?_, fun ev he => ?_, fun ev he => ?_⟩
  · exact Bool.and_elim_left (by rw [← disciplined]; exact hprep ev he)
  · exact Bool.and_elim_right (by rw [← disciplined]; exact hprep ev he)
  · have := dispLoop_disciplined s2.nOutput 0 s2.parts s2.pictures ev
      (by simpa [vidsplit_Display] using he)
    exact Bool.and_elim_left (by rw [← disciplined]; exact this)
  · unfold window_MouseEvent at he
    cases hr : remap e with
    | none =>
      simp only [hr, List.mem_cons, List.not_mem_nil, or_false] at he
      rcases he with h | h | h <;> (subst h; rfl)
    | some m2 =>
      simp only [hr, List.mem_cons, List.not_mem_nil, or_false] at he
      rcases he with h | h | h | h <;> (subst h; rfl)
  · simp only [window_KeyboardEvent, List.mem_cons] at he
    rcases he with h | h | h | h <;> first | (subst h; rfl) | simp at h
  · unfold window_Resized at he
    cases hasCb <;> cases hd : p.display <;>
      simp only [hd, List.cons_append, List.nil_append, List.mem_cons,
        if_true, Bool.false_eq_true, if_false] at he <;>
      rcases he with h | h | h | h | h <;>
      first | (subst h; rfl) | simp at h
  · unfold window_Closed at he
    cases hd : q.display <;> simp only [hd, List.mem_cons] at he <;>
      rcases he with h | h | h | h <;> first | (subst h; rfl) | simp at h
  · unfold vidsplit_Close at he
    simp only [List.mem_append, List.mem_cons] at he
    rcases he with h | h | h | h
    · exact Bool.and_elim_left
        (by rw [← disciplined]; exact closeLoop_disciplined _ _ _ _ h)
    · subst h; rfl
    · subst h; rfl
    · simp at h

/-- Witness for `engine_only_under_global_guard`: the filter invocation of a
concrete prepare cycle is recorded with the global guard held. -/
theorem engine_only_under_global_guard_witness :
    engineHeldOk (Ev.filterCall true) = true :=
  (engine_only_under_global_guard ⟨false, [], [], 0⟩ ⟨false, [], [], 0⟩ true []
      (fun _ pic => pic) ⟨0, 0, 0⟩ (fun _ => none) 0 0 0 0 ⟨none, 1, 1, 1⟩
      ⟨none, 1, 1, 1⟩ false 0 []).1 (Ev.filterCall true) (by decide)

/-- Claim C3 counterexample: the filter-failure branch of the prepare phase
clears the frame slots after releasing `sys->lock` — the trace of a concrete
failing cycle contains a slot write with the global guard not held, so the
claim that the slots are accessed only under the guard is false on the code. -/
theorem frame_slot_cleared_without_global_guard :
    Ev.picClear 0 false ∈
      (vidsplit_Prepare ⟨false, [some 5], [⟨some 2, 1, 1, 0⟩], 1⟩ false []
        (fun _ pic => pic)).2 := by
  decide

theorem prepLoop_spec (prepFn : Nat → Option Nat → Option Nat) :
    ∀ (ps : List vlc_vidsplit_part) (pics : List (Option Nat)) (i : Nat),
      ps.length = pics.length →
      (prepLoop prepFn ps.length i ps pics).1.length = ps.length ∧
      (prepLoop prepFn ps.length i ps pics).2.1.length = ps.length ∧
      prepsOf (prepLoop prepFn ps.length i ps pics).2.2 = idxList i ps.length ∧
      waitsOf (prepLoop prepFn ps.length i ps pics).2.2 = idxList i ps.length ∧
      presentsOf (prepLoop prepFn ps.length i ps pics).2.2 = [] ∧
      postsOf (prepLoop prepFn ps.length i ps pics).2.2 = [] := by
  intro ps
  induction ps with
  | nil =>
    intro pics i hlen
    simp [prepLoop, prepsOf, waitsOf, presentsOf, postsOf, idxList, ← hlen]
  | cons p rest ih =>
    intro pics i hlen
    cases pics with
    | nil => simp at hlen
    | cons pic pics2 =>
      have hlen2 : rest.length = pics2.length := by
        simpa using hlen
      have := ih pics2 (i + 1) hlen2
      simp only [List.length_cons, prepLoop, prepsOf, waitsOf, presentsOf,
        postsOf, List.filterMap_cons, idxList] at this ⊢
      simp [this, idxList]

theorem prepLoop_pics_isSome (prepFn : Nat → Option Nat → Option Nat)
    (hall : ∀ (j : Nat) (pic : Option Nat), (prepFn j pic).isSome = true) :
    ∀ (ps : List vlc_vidsplit_part) (pics : List (Option Nat)) (i : Nat),
      ps.length = pics.length →
      ∀ q ∈ (prepLoop prepFn ps.length i ps pics).2.1, q.isSome = true := by
  intro ps
  induction ps with
  | nil =>
    intro pics i hlen q hq
    have : pics = [] := List.length_eq_zero.mp hlen.symm
    subst this
    simp [prepLoop] at hq
  | cons p rest ih =>
    intro pics i hlen q hq
    cases pics with
    | nil => simp at hlen
    | cons pic pics2 =>
      have hlen2 : rest.length = pics2.length := by simpa using hlen
      simp only [List.length_cons, prepLoop, List.mem_cons] at hq
      rcases hq with h | h
      · subst h; exact hall i pic
      · exact ih pics2 (i + 1) hlen2 q h

theorem dispLoop_spec :
    ∀ (ps : List vlc_vidsplit_part) (pics : List (Option Nat)) (i : Nat),
      ps.length = pics.length →
      (∀ q ∈ pics, q.isSome = true) →
      presentsOf (dispLoop ps.length i ps pics).2 = idxList i ps.length ∧
      postsOf (dispLoop ps.length i ps pics).2 = idxList i ps.length ∧
      prepsOf (dispLoop ps.length i ps pics).2 = [] ∧
      waitsOf (dispLoop ps.length i ps pics).2 = [] := by
  intro ps
  induction ps with
  | nil =>
    intro pics i hlen hsome
    simp [dispLoop, prepsOf, waitsOf, presentsOf, postsOf, idxList]
  | cons p rest ih =>
    intro pics i hlen hsome
    cases pics with
    | nil => simp at hlen
    | cons pic pics2 =>
      have hlen2 : rest.length = pics2.length := by simpa using hlen
      have hsome2 : ∀ q ∈ pics2, q.isSome = true := fun q hq =>
        hsome q (List.mem_cons_of_mem pic hq)
      cases pic with
      | none =>
        have : (none : Option Nat).isSome = true :=
          hsome none (List.mem_cons_self none pics2)
        simp at this
      | some v =>
        have := ih pics2 (i + 1) hlen2 hsome2
        simp only [List.length_cons, dispLoop, prepsOf, waitsOf, presentsOf,
          postsOf, List.filterMap_cons, List.filterMap_append, idxList,
          List.cons_append, List.nil_append] at this ⊢
        simp [this, idxList]

/-- Claim C5: in a render cycle whose Splitting Engine call succeeds (and
whose renderer prepare collaborator yields a frame), the prepare phase waits
on every region's guard exactly once, in index order 0..N-1, and issues the
prepares in index order 0..N-1 — in particular each region with a bound
renderer receives exactly one prepare — while issuing no present and no post;
the commit phase then issues exactly one present per region in index order
and posts every region's guard exactly once, in index order, issuing no
prepare and no wait.  So per cycle: one prepare then one present per region,
one guard acquisition (prepare phase) and one release (commit phase). -/
theorem render_cycle_success_guard_and_order
    (parts : List vlc_vidsplit_part) (pics outs : List (Option Nat)) (n : Nat)
    (mtx : Bool) (prepFn : Nat → Option Nat → Option Nat)
    (hp : parts.length = n) (ho : outs.length = n)
    (hprep : ∀ (j : Nat) (pic : Option Nat), (prepFn j pic).isSome = true) :
    prepsOf (vidsplit_Prepare ⟨mtx, pics, parts, n⟩ true outs prepFn).2
        = List.range n ∧
    waitsOf (vidsplit_Prepare ⟨mtx, pics, parts, n⟩ true outs prepFn).2
        = List.range n ∧
    presentsOf (vidsplit_Prepare ⟨mtx, pics, parts, n⟩ true outs prepFn).2
        = [] ∧
    postsOf (vidsplit_Prepare ⟨mtx, pics, parts, n⟩ true outs prepFn).2 = [] ∧
    presentsOf (vidsplit_Display
        (vidsplit_Prepare ⟨mtx, pics, parts, n⟩ true outs prepFn).1).2
        = List.range n ∧
    postsOf (vidsplit_Display
        (vidsplit_Prepare ⟨mtx, pics, parts, n⟩ true outs prepFn).1).2
        = List.range n ∧
    prepsOf (vidsplit_Display
        (vidsplit_Prepare ⟨mtx, pics, parts, n⟩ true outs prepFn).1).2 = [] ∧
    waitsOf (vidsplit_Display
        (vidsplit_Prepare ⟨mtx, pics, parts, n⟩ true outs prepFn).1).2 = [] := by
  subst hp
  have hpl := prepLoop_spec prepFn parts outs 0 ho.symm
  have hps := prepLoop_pics_isSome prepFn hprep parts outs 0 ho.symm
  obtain ⟨hl1, hl2, hpr, hwa, hpe, hpo⟩ := hpl
  have hstate :
      (vidsplit_Prepare ⟨mtx, pics, parts, parts.length⟩ true outs prepFn)
        = (⟨false, (prepLoop prepFn parts.length 0 parts outs).2.1,
            (prepLoop prepFn parts.length 0 parts outs).1, parts.length⟩,
          Ev.lockG :: Ev.filterCall true :: Ev.unlockG ::
            (prepLoop prepFn parts.length 0 parts outs).2.2) := by
    simp [vidsplit_Prepare]
  rw [hstate]
  have hdl := dispLoop_spec (prepLoop prepFn parts.length 0 parts outs).1
    (prepLoop prepFn parts.length 0 parts outs).2.1 0
    (by rw [hl1, hl2]) hps
  rw [hl1] at hdl
  obtain ⟨hde, hdo, hdp, hdw⟩ := hdl
  refine ⟨?_, ?_, ?_, ?_, ?_, ?_, ?_, ?_⟩
  · rw [← idxList_zero parts.length]; exact hpr
  · rw [← idxList_zero parts.length]; exact hwa
  · exact hpe
  · exact hpo
  · rw [← idxList_zero parts.length]; exact hde
  · rw [← idxList_zero parts.length]; exact hdo
  · exact hdp
  · exact hdw

/-- Witness for `render_cycle_success_guard_and_order`: a concrete one-region
cycle with a bound renderer. -/
theorem render_cycle_success_witness :
    prepsOf (vidsplit_Prepare ⟨false, [none], [⟨some 7, 1, 1, 1⟩], 1⟩ true
        [some 5] (fun _ _ => some 9)).2 = List.range 1 ∧
    presentsOf (vidsplit_Display (vidsplit_Prepare ⟨false, [none],
        [⟨some 7, 1, 1, 1⟩], 1⟩ true [some 5] (fun _ _ => some 9)).1).2
      = List.range 1 ∧
    postsOf (vidsplit_Display (vidsplit_Prepare ⟨false, [none],
        [⟨some 7, 1, 1, 1⟩], 1⟩ true [some 5] (fun _ _ => some 9)).1).2
      = List.range 1 :=
  ⟨(render_cycle_success_guard_and_order [⟨some 7, 1, 1, 1⟩] [none] [some 5] 1
      false (fun _ _ => some 9) rfl rfl (fun _ _ => rfl)).1,
    (render_cycle_success_guard_and_order [⟨some 7, 1, 1, 1⟩] [none] [some 5] 1
      false (fun _ _ => some 9) rfl rfl (fun _ _ => rfl)).2.2.2.2.1,
    (render_cycle_success_guard_and_order [⟨some 7, 1, 1, 1⟩] [none] [some 5] 1
      false (fun _ _ => some 9) rfl rfl (fun _ _ => rfl)).2.2.2.2.2.1⟩

/-- The part record left by a fully successful open-loop iteration `j`:
display bound, default 1x1 size, semaphore back to free. -/
def mkPart (j : Nat) : vlc_vidsplit_part :=
  { display := some j, width := 1, height := 1, sem := 1 }

/-- The parts built by open-loop iterations `i .. i+n-1`. -/
def mkParts : Nat → Nat → List vlc_vidsplit_part
  | _, 0 => []
  | i, n + 1 => mkPart i :: mkParts (i + 1) n

/-- Concatenation of per-index event blocks for indices `i .. i+n-1`. -/
def evsOfRange (f : Nat → List Ev) : Nat → Nat → List Ev
  | _, 0 => []
  | i, n + 1 => f i ++ evsOfRange f (i + 1) n

/-- Events of one fully successful open-loop iteration. -/
def goodIter (j : Nat) : List Ev :=
  [Ev.winCreate j, Ev.winEnable j, Ev.semWait j, Ev.dispCreate j, Ev.semPost j]

/-- Events of one close-loop iteration on a part whose display is bound. -/
def closeIter (j : Nat) : List Ev :=
  [Ev.semWait j, Ev.semPost j, Ev.dispDelete j, Ev.winDisable j, Ev.winDelete j]

/-- Events emitted by the failing open-loop iteration `k` itself, before the
rollback close, by failure mode: window creation failing inside
`video_splitter_CreateWindow` (either at `vlc_window_New`, leaving nothing, or
at `vlc_window_Enable`, which deletes the fresh window), or `vout_display_New`
failing (which posts the part's lock and disables/deletes this window). -/
def failEvs (env : OpenEnv) (k : Nat) : List Ev :=
  if env.winNewOk k then
    if env.winEnableOk k then
      [Ev.winCreate k, Ev.winEnable k, Ev.semWait k, Ev.semPost k,
        Ev.winDisable k, Ev.winDelete k]
    else [Ev.winCreate k, Ev.winDelete k]
  else []

/-- Open-loop iteration `j` succeeds fully (window created, enabled, display
created). -/
def goodStep (env : OpenEnv) (j : Nat) : Prop :=
  env.winNewOk j = true ∧ env.winEnableOk j = true ∧ env.dispOk j = true

theorem mkParts_snoc : ∀ (n i : Nat),
    mkParts i n ++ [mkPart (i + n)] = mkParts i (n + 1) := by
  intro n
  induction n with
  | zero => intro i; simp [mkParts]
  | succ m ih =>
    intro i
    simp only [mkParts, List.cons_append]
    rw [show i + (m + 1) = (i + 1) + m by omega]
    exact congrArg _ (ih (i + 1))

theorem closeLoop_mkParts_trace : ∀ (n i : Nat),
    (closeLoop n i (mkParts i n)).2 = evsOfRange closeIter i n := by
  intro n
  induction n with
  | zero => intro i; rfl
  | succ m ih =>
    intro i
    simp only [mkParts, closeLoop, mkPart]
    rw [ih (i + 1)]
    simp [closeIter, evsOfRange]

theorem openLoop_fail_trace (env : OpenEnv) (k : Nat)
    (hbad : ¬ goodStep env k) :
    ∀ (n i : Nat), i ≤ k → k < i + n →
      (∀ j, i ≤ j → j < k → goodStep env j) →
      (openLoop env n i (mkParts 0 i)).1 = false ∧
      (openLoop env n i (mkParts 0 i)).2.2 =
        evsOfRange goodIter i (k - i) ++ failEvs env k
          ++ (vidsplit_Close k (mkParts 0 k)).2 := by
  intro n
  induction n with
  | zero => intro i h1 h2 h3; omega
  | succ m ih =>
    intro i h1 h2 h3
    by_cases hik : i = k
    · subst hik
      have hwn : env.winNewOk i = false ∨
          (env.winNewOk i = true ∧ env.winEnableOk i = false) ∨
          (env.winNewOk i = true ∧ env.winEnableOk i = true ∧
            env.dispOk i = false) := by
        unfold goodStep at hbad
        cases h : env.winNewOk i with
        | false => exact Or.inl rfl
        | true =>
          cases hb : env.winEnableOk i with
          | false => exact Or.inr (Or.inl ⟨rfl, rfl⟩)
          | true =>
            cases hc : env.dispOk i with
            | false => exact Or.inr (Or.inr ⟨rfl, rfl, rfl⟩)
            | true => exact absurd ⟨h, hb, hc⟩ hbad
      rcases hwn with h | ⟨ha2, hb2⟩ | ⟨ha2, hb2, hc2⟩
      · simp [openLoop, CreateWindow, h, failEvs, Nat.sub_self, evsOfRange]
      · simp [openLoop, CreateWindow, ha2, hb2, failEvs, Nat.sub_self,
          evsOfRange]
      · simp [openLoop, CreateWindow, ha2, hb2, hc2, failEvs, Nat.sub_self,
          evsOfRange]
    · have hlt : i < k := Nat.lt_of_le_of_ne h1 hik
      obtain ⟨hga, hgb, hgc⟩ := h3 i (le_refl i) hlt
      have ihr := ih (i + 1) (by omega) (by omega)
        (fun j2 hj1 hj2 => h3 j2 (by omega) hj2)
      have hmk : mkParts 0 i ++
          [({ display := some i, width := 1, height := 1,
              sem := 1 } : vlc_vidsplit_part)] = mkParts 0 (i + 1) := by
        have := mkParts_snoc i 0
        simpa [mkPart] using this
      simp only [openLoop, CreateWindow, hga, hgb, hgc, if_true]
      rw [hmk]
      refine ⟨ihr.1, ?_⟩
      rw [show (k - i) = (k - (i + 1)) + 1 by omega]
      simp only [evsOfRange]
      rw [ihr.2]
      simp [goodIter, List.append_assoc]

theorem countEv_evsOfRange (f : Nat → List Ev) (e : Ev) (t c : Nat)
    (hf : ∀ m, countEv e (f m) = if m = t then c else 0) :
    ∀ (n i : Nat),
      countEv e (evsOfRange f i n) = if i ≤ t ∧ t < i + n then c else 0 := by
  intro n
  induction n with
  | zero =>
    intro i
    rw [show evsOfRange f i 0 = [] from rfl, countEv_nil, if_neg (by omega)]
  | succ m ih =>
    intro i
    rw [show evsOfRange f i (m + 1) = f i ++ evsOfRange f (i + 1) m from rfl,
      countEv_append, hf i, ih (i + 1)]
    by_cases h1 : i = t
    · subst h1
      rw [if_pos rfl, if_neg (by omega), if_pos (by omega)]
      omega
    · rw [if_neg h1]
      by_cases h2 : i + 1 ≤ t ∧ t < i + 1 + m
      · rw [if_pos h2, if_pos (by omega)]
        omega
      · rw [if_neg h2, if_neg (by omega)]

theorem countEv_evsOfRange_zero (f : Nat → List Ev) (e : Ev)
    (hf : ∀ m, countEv e (f m) = 0) :
    ∀ (n i : Nat), countEv e (evsOfRange f i n) = 0 := by
  intro n
  induction n with
  | zero => intro i; rfl
  | succ m ih =>
    intro i
    rw [show evsOfRange f i (m + 1) = f i ++ evsOfRange f (i + 1) m from rfl,
      countEv_append, hf i, ih (i + 1)]

theorem cnt_goodIter_winCreate (j m : Nat) :
    countEv (Ev.winCreate j) (goodIter m) = if m = j then 1 else 0 := by
  by_cases h : m = j <;> simp [goodIter, countEv, List.filter_cons, h]

theorem cnt_goodIter_winDelete (j m : Nat) :
    countEv (Ev.winDelete j) (goodIter m) = 0 := by
  simp [goodIter, countEv, List.filter_cons]

theorem cnt_goodIter_dispCreate (j m : Nat) :
    countEv (Ev.dispCreate j) (goodIter m) = if m = j then 1 else 0 := by
  by_cases h : m = j <;> simp [goodIter, countEv, List.filter_cons, h]

theorem cnt_goodIter_dispDelete (j m : Nat) :
    countEv (Ev.dispDelete j) (goodIter m) = 0 := by
  simp [goodIter, countEv, List.filter_cons]

theorem cnt_closeIter_winCreate (j m : Nat) :
    countEv (Ev.winCreate j) (closeIter m) = 0 := by
  simp [closeIter, countEv, List.filter_cons]

theorem cnt_closeIter_winDelete (j m : Nat) :
    countEv (Ev.winDelete j) (closeIter m) = if m = j then 1 else 0 := by
  by_cases h : m = j <;> simp [closeIter, countEv, List.filter_cons, h]

theorem cnt_closeIter_dispCreate (j m : Nat) :
    countEv (Ev.dispCreate j) (closeIter m) = 0 := by
  simp [closeIter, countEv, List.filter_cons]

theorem cnt_closeIter_dispDelete (j m : Nat) :
    countEv (Ev.dispDelete j) (closeIter m) = if m = j then 1 else 0 := by
  by_cases h : m = j <;> simp [closeIter, countEv, List.filter_cons, h]

theorem cnt_failEvs_winCreate (env : OpenEnv) (k j : Nat) :
    countEv (Ev.winCreate j) (failEvs env k)
      = if j = k then (if env.winNewOk k = true then 1 else 0) else 0 := by
  unfold failEvs
  by_cases h1 : env.winNewOk k = true
  · by_cases h2 : env.winEnableOk k = true
    · by_cases h3 : j = k <;>
        simp [h1, h2, h3, countEv, List.filter_cons] <;> omega
    · by_cases h3 : j = k <;>
        simp [h1, h2, h3, countEv, List.filter_cons] <;> omega
  · simp [h1, countEv]

theorem cnt_failEvs_winDelete (env : OpenEnv) (k j : Nat) :
    countEv (Ev.winDelete j) (failEvs env k)
      = if j = k then (if env.winNewOk k = true then 1 else 0) else 0 := by
  unfold failEvs
  by_cases h1 : env.winNewOk k = true
  · by_cases h2 : env.winEnableOk k = true
    · by_cases h3 : j = k <;>
        simp [h1, h2, h3, countEv, List.filter_cons] <;> omega
    · by_cases h3 : j = k <;>
        simp [h1, h2, h3, countEv, List.filter_cons] <;> omega
  · simp [h1, countEv]

theorem cnt_failEvs_dispCreate (env : OpenEnv) (k j : Nat) :
    countEv (Ev.dispCreate j) (failEvs env k) = 0 := by
  unfold failEvs
  by_cases h1 : env.winNewOk k = true
  · by_cases h2 : env.winEnableOk k = true <;>
      simp [h1, h2, countEv, List.filter_cons]
  · simp [h1, countEv]

theorem cnt_failEvs_dispDelete (env : OpenEnv) (k j : Nat) :
    countEv (Ev.dispDelete j) (failEvs env k) = 0 := by
  unfold failEvs
  by_cases h1 : env.winNewOk k = true
  · by_cases h2 : env.winEnableOk k = true <;>
      simp [h1, h2, countEv, List.filter_cons]
  · simp [h1, countEv]

theorem cnt_tail_winCreate (j : Nat) :
    countEv (Ev.winCreate j) [Ev.modUnload, Ev.splitterDelete] = 0 := by
  simp [countEv, List.filter_cons]

theorem cnt_tail_winDelete (j : Nat) :
    countEv (Ev.winDelete j) [Ev.modUnload, Ev.splitterDelete] = 0 := by
  simp [countEv, List.filter_cons]

theorem cnt_tail_dispCreate (j : Nat) :
    countEv (Ev.dispCreate j) [Ev.modUnload, Ev.splitterDelete] = 0 := by
  simp [countEv, List.filter_cons]

theorem cnt_tail_dispDelete (j : Nat) :
    countEv (Ev.dispDelete j) [Ev.modUnload, Ev.splitterDelete] = 0 := by
  simp [countEv, List.filter_cons]

/-- Claim C4: when open's construction first fails at region index k (every
earlier iteration fully succeeded, k is within the engine's output count, and
the pre-loop stages succeeded), the effective output count is set to k and
the rollback covers exactly the regions [0, k): for every index j, windows
and displays are destroyed exactly as often as they were created (no leak)
and never more than once (no double free); every region j < k had its window
and display created and destroyed; no display at or beyond index k and no
window beyond index k ever exists. -/
theorem open_fail_rollback_exact (env : OpenEnv) (o : Orient) (k j : Nat)
    (hw : env.windowed = false) (hn : env.nameOk = true)
    (hs : env.sysAllocOk = true) (hm : env.moduleOk = true)
    (ha : env.allocOk = true) (hk : k < env.nOut)
    (hgood : ∀ i, i < k → goodStep env i) (hbad : ¬ goodStep env k) :
    countEv (Ev.winCreate j) (vidsplit_Open env o).trace
      = countEv (Ev.winDelete j) (vidsplit_Open env o).trace ∧
    countEv (Ev.dispCreate j) (vidsplit_Open env o).trace
      = countEv (Ev.dispDelete j) (vidsplit_Open env o).trace ∧
    countEv (Ev.winDelete j) (vidsplit_Open env o).trace ≤ 1 ∧
    countEv (Ev.dispDelete j) (vidsplit_Open env o).trace ≤ 1 ∧
    (j < k → countEv (Ev.winCreate j) (vidsplit_Open env o).trace = 1 ∧
      countEv (Ev.dispCreate j) (vidsplit_Open env o).trace = 1) ∧
    (k ≤ j → countEv (Ev.dispCreate j) (vidsplit_Open env o).trace = 0) ∧
    (k < j → countEv (Ev.winCreate j) (vidsplit_Open env o).trace = 0) := by
  have hloop := openLoop_fail_trace env k hbad env.nOut 0 (Nat.zero_le k)
    (by omega) (fun j2 _ hj2 => hgood j2 hj2)
  have htr : (vidsplit_Open env o).trace
      = (openLoop env env.nOut 0 (mkParts 0 0)).2.2 := by
    unfold vidsplit_Open
    simp only [hw, hn, hs, hm, ha, Bool.not_true, Bool.false_eq_true,
      if_false]
    split <;> rfl
  rw [htr, hloop.2, Nat.sub_zero]
  simp only [vidsplit_Close]
  rw [closeLoop_mkParts_trace]
  have hg1 := countEv_evsOfRange goodIter (Ev.winCreate j) j 1
    (fun m => cnt_goodIter_winCreate j m) k 0
  have hg2 := countEv_evsOfRange_zero goodIter (Ev.winDelete j)
    (fun m => cnt_goodIter_winDelete j m) k 0
  have hg3 := countEv_evsOfRange goodIter (Ev.dispCreate j) j 1
    (fun m => cnt_goodIter_dispCreate j m) k 0
  have hg4 := countEv_evsOfRange_zero goodIter (Ev.dispDelete j)
    (fun m => cnt_goodIter_dispDelete j m) k 0
  have hc1 := countEv_evsOfRange_zero closeIter (Ev.winCreate j)
    (fun m => cnt_closeIter_winCreate j m) k 0
  have hc2 := countEv_evsOfRange closeIter (Ev.winDelete j) j 1
    (fun m => cnt_closeIter_winDelete j m) k 0
  have hc3 := countEv_evsOfRange_zero closeIter (Ev.dispCreate j)
    (fun m => cnt_closeIter_dispCreate j m) k 0
  have hc4 := countEv_evsOfRange closeIter (Ev.dispDelete j) j 1
    (fun m => cnt_closeIter_dispDelete j m) k 0
  simp only [countEv_append, hg1, hg2, hg3, hg4, hc1, hc2, hc3, hc4,
    cnt_failEvs_winCreate, cnt_failEvs_winDelete, cnt_failEvs_dispCreate,
    cnt_failEvs_dispDelete, cnt_tail_winCreate, cnt_tail_winDelete,
    cnt_tail_dispCreate, cnt_tail_dispDelete]
  refine ⟨?_, ?_, ?_, ?_, fun hjk => ⟨?_, ?_⟩, fun hjk => ?_, fun hjk => ?_⟩ <;>
    split_ifs <;> omega

/-- Witness for `open_fail_rollback_exact`: two declared outputs, the second
region's display creation fails; region 0's window is created and destroyed
exactly once and its display was created. -/
theorem open_fail_rollback_witness :
    countEv (Ev.winCreate 0) (vidsplit_Open ⟨false, true, true, true, 2, true,
        fun _ => true, fun _ => true, fun i => i == 0⟩ Orient.normal).trace
      = countEv (Ev.winDelete 0) (vidsplit_Open ⟨false, true, true, true, 2,
        true, fun _ => true, fun _ => true, fun i => i == 0⟩
          Orient.normal).trace ∧
    countEv (Ev.dispCreate 0) (vidsplit_Open ⟨false, true, true, true, 2, true,
        fun _ => true, fun _ => true, fun i => i == 0⟩ Orient.normal).trace
      = 1 :=
  ⟨(open_fail_rollback_exact _ Orient.normal 1 0 rfl rfl rfl rfl rfl
      (by decide)
      (fun i hi => by
        have h0 : i = 0 := by omega
        subst h0
        exact ⟨rfl, rfl, rfl⟩)
      (fun hgs => absurd hgs.2.2 (by decide))).1,
    ((open_fail_rollback_exact _ Orient.normal 1 0 rfl rfl rfl rfl rfl
      (by decide)
      (fun i hi => by
        have h0 : i = 0 := by omega
        subst h0
        exact ⟨rfl, rfl, rfl⟩)
      (fun hgs => absurd hgs.2.2 (by decide))).2.2.2.2.1 (by decide)).2⟩
